import Mathlib

/-!
Verification of the combat/collision core of the shoot-game repository.

The Rust source is embedded shallowly:
* f32 values are modelled as exact rationals (ℚ); the square roots computed
  by the source (polygon bounding radii, vector distances) appear through
  Real.sqrt inside Prop-valued predicates, or through exact squared-distance
  reformulations that are proved equivalent to the sqrt form over ℝ.
* u32 / i32 counters are modelled as ℕ / ℤ; the u32::MAX pierce sentinel is
  kept as the literal 2^32 - 1.
* Per-frame ECS systems become explicit state-passing functions on records;
  the entity ids handed out by the engine become ℕ.
-/

namespace ShootGame

/-! ## Geometry primitives (src/geometry, src/game/collision.rs) -/

/-- Squared distance between two points, as computed by
Vec2::distance_squared in circle_circle_collision and the AOE checks. -/
def dist_sq (a b : ℚ × ℚ) : ℚ :=
  (a.1 - b.1) ^ 2 + (a.2 - b.2) ^ 2

/-- CollisionShape from src/geometry: Circle { radius }, Rectangle { width,
height }, Polygon { vertices }. -/
inductive CollisionShape where
  | circle (radius : ℚ)
  | rectangle (width height : ℚ)
  | polygon (vertices : List (ℚ × ℚ))
deriving DecidableEq

/-- CollisionLayer (src/game/collision.rs). -/
inductive CollisionLayer where
  | player
  | playerBullet
  | enemy
  | enemyBullet
  | powerUp
deriving DecidableEq

/-- CollisionMask (src/game/collision.rs): one permission bit per layer. -/
structure CollisionMask where
  player : Bool
  player_bullet : Bool
  enemy : Bool
  enemy_bullet : Bool
  power_up : Bool
deriving DecidableEq

/-- CollisionMask::can_collide_with (src/game/collision.rs lines 120-128). -/
def CollisionMask.can_collide_with (m : CollisionMask) (layer : CollisionLayer) : Bool :=
  match layer with
  | .player => m.player
  | .playerBullet => m.player_bullet
  | .enemy => m.enemy
  | .enemyBullet => m.enemy_bullet
  | .powerUp => m.power_up

/-- CollisionMask::player_bullet_mask (src/game/collision.rs lines 90-98). -/
def CollisionMask.player_bullet_mask : CollisionMask :=
  { player := false, player_bullet := false, enemy := true,
    enemy_bullet := false, power_up := false }

/-- CollisionMask::enemy_mask (src/game/collision.rs lines 100-108). -/
def CollisionMask.enemy_mask : CollisionMask :=
  { player := true, player_bullet := true, enemy := false,
    enemy_bullet := false, power_up := false }

/-- polygon_bounding_radius (src/game/collision.rs lines 268-273): the fold
max over sqrt(x^2 + y^2) of all vertices.  Radii live in ℝ because of the
square root. -/
noncomputable def polygon_bounding_radius (vertices : List (ℚ × ℚ)) : ℝ :=
  (vertices.map fun v => Real.sqrt ((v.1 : ℝ) ^ 2 + (v.2 : ℝ) ^ 2)).foldl max 0

/-- circle_circle_collision (src/game/collision.rs lines 223-227):
squared distance at most the squared radius sum.  The radii are ℝ so the
same function serves the polygon branches of check_collision, exactly as in
the source. -/
def circle_circle_collision (pos_a : ℚ × ℚ) (r_a : ℝ) (pos_b : ℚ × ℚ) (r_b : ℝ) : Prop :=
  (dist_sq pos_a pos_b : ℝ) ≤ (r_a + r_b) * (r_a + r_b)

/-- Clamp of a rational into an interval, as f32::clamp is used by
circle_rect_collision. -/
def clampQ (x lo hi : ℚ) : ℚ := min (max x lo) hi

/-- circle_rect_collision (src/game/collision.rs lines 230-245): clamp the
circle center into the axis-aligned rectangle, then compare the squared
distance to the clamped point against radius^2. -/
def circle_rect_collision (circle_pos : ℚ × ℚ) (radius : ℝ)
    (rect_pos : ℚ × ℚ) (width height : ℚ) : Prop :=
  let half_w := width / 2
  let half_h := height / 2
  let closest_x := clampQ circle_pos.1 (rect_pos.1 - half_w) (rect_pos.1 + half_w)
  let closest_y := clampQ circle_pos.2 (rect_pos.2 - half_h) (rect_pos.2 + half_h)
  ((circle_pos.1 - closest_x) ^ 2 + (circle_pos.2 - closest_y) ^ 2 : ℝ) ≤ radius * radius

/-- rect_rect_collision (src/game/collision.rs lines 248-265): axis-aligned
overlap test on both axes. -/
def rect_rect_collision (pos_a : ℚ × ℚ) (w_a h_a : ℚ)
    (pos_b : ℚ × ℚ) (w_b h_b : ℚ) : Prop :=
  (pos_a.1 - w_a / 2) < (pos_b.1 + w_b / 2)
    ∧ (pos_a.1 + w_a / 2) > (pos_b.1 - w_b / 2)
    ∧ (pos_a.2 - h_a / 2) < (pos_b.2 + h_b / 2)
    ∧ (pos_a.2 + h_a / 2) > (pos_b.2 - h_b / 2)

/-- check_collision (src/game/collision.rs lines 177-220): the shape-pair
dispatch.  Polygon shapes degrade to their bounding circle. -/
def check_collision (pos_a : ℚ × ℚ) (shape_a : CollisionShape)
    (pos_b : ℚ × ℚ) (shape_b : CollisionShape) : Prop :=
  match shape_a, shape_b with
  | .circle r_a, .circle r_b =>
      circle_circle_collision pos_a (r_a : ℝ) pos_b (r_b : ℝ)
  | .circle radius, .rectangle width height =>
      circle_rect_collision pos_a (radius : ℝ) pos_b width height
  | .rectangle width height, .circle radius =>
      circle_rect_collision pos_b (radius : ℝ) pos_a width height
  | .rectangle w_a h_a, .rectangle w_b h_b =>
      rect_rect_collision pos_a w_a h_a pos_b w_b h_b
  | .polygon v_a, .polygon v_b =>
      circle_circle_collision pos_a (polygon_bounding_radius v_a)
        pos_b (polygon_bounding_radius v_b)
  | .polygon vertices, .circle radius =>
      circle_circle_collision pos_a (polygon_bounding_radius vertices) pos_b (radius : ℝ)
  | .circle radius, .polygon vertices =>
      circle_circle_collision pos_a (radius : ℝ) pos_b (polygon_bounding_radius vertices)
  | .polygon vertices, .rectangle width height =>
      circle_rect_collision pos_a (polygon_bounding_radius vertices) pos_b width height
  | .rectangle width height, .polygon vertices =>
      circle_rect_collision pos_b (polygon_bounding_radius vertices) pos_a width height

/-- One entry of the query snapshot detect_collisions iterates over:
(Entity, Transform, Collider). -/
structure CollEntity where
  id : ℕ
  pos : ℚ × ℚ
  shape : CollisionShape
  layer : CollisionLayer
  mask : CollisionMask

/-- detect_collisions (src/game/collision.rs lines 141-174) emits a
CollisionEvent for the ordered index pair (i, j): the double loop visits
exactly the pairs with i < j, skips the pair when neither mask permits the
other layer, and otherwise emits iff the shapes pass check_collision. -/
def emits_collision_event (entities : List CollEntity) (i j : ℕ) : Prop :=
  ∃ a b, entities[i]? = some a ∧ entities[j]? = some b ∧ i < j ∧
    (a.mask.can_collide_with b.layer = true ∨ b.mask.can_collide_with a.layer = true) ∧
    check_collision a.pos a.shape b.pos b.shape

/-! ## Progression state (src/game/states.rs) -/

/-- GameData (src/game/states.rs lines 26-51), restricted to the fields the
combat systems mutate.  score / experience / player_level are u32 in the
source. -/
structure GameData where
  score : ℕ
  high_score : ℕ
  experience : ℕ
  player_level : ℕ
  upgrading : Bool
deriving DecidableEq

/-- GameData::exp_for_level (src/game/states.rs lines 103-107): the source
computes (1300.0 * (level as f32).powf(1.5)) as u32, that is
the floor of 1300 * level^1.5.  Over the reals
1300 * level^1.5 = sqrt(1300^2 * level^3), so the floor equals
Nat.sqrt (1690000 * level^3). -/
def exp_for_level (level : ℕ) : ℕ :=
  Nat.sqrt (1690000 * level ^ 3)

/-- GameData::add_experience (src/game/states.rs lines 110-119): accumulate
experience; on reaching the threshold subtract it, advance the level and
raise the upgrading gate. -/
def GameData.add_experience (gd : GameData) (exp : ℕ) : GameData :=
  let experience := gd.experience + exp
  let required := exp_for_level gd.player_level
  if experience ≥ required then
    { gd with
      experience := experience - required
      player_level := gd.player_level + 1
      upgrading := true }
  else
    { gd with experience := experience }

/-- GameData::add_score_only (src/game/states.rs lines 95-100): score and
high score only, no experience. -/
def GameData.add_score_only (gd : GameData) (points : ℕ) : GameData :=
  let score := gd.score + points
  { gd with
    score := score
    high_score := if score > gd.high_score then score else gd.high_score }

/-- GameData::add_score (src/game/states.rs lines 85-92): score, high score,
then experience. -/
def GameData.add_score (gd : GameData) (points : ℕ) : GameData :=
  let score := gd.score + points
  let gd := { gd with
    score := score
    high_score := if score > gd.high_score then score else gd.high_score }
  gd.add_experience points

/-! ## Boss state machine (src/entities/boss.rs) -/

/-- BossState (src/entities/boss.rs lines 54-65), restricted to the fields
the combat systems touch. -/
structure BossState where
  active : Bool
  current_health : ℤ
deriving DecidableEq

/-- Boss (src/entities/boss.rs lines 78-88), restricted to the fields the
phase recomputation reads and writes. -/
structure Boss where
  health : ℤ
  max_health : ℤ
  phase : ℕ
  score_value : ℕ
  entered : Bool
deriving DecidableEq

/-- The phase computation of boss_behavior (src/entities/boss.rs lines
590-598): health_percent = health / max_health; > 0.6 gives phase 1,
> 0.3 gives phase 2, otherwise phase 3. -/
def boss_phase_of (health max_health : ℤ) : ℕ :=
  let health_percent : ℚ := (health : ℚ) / (max_health : ℚ)
  if health_percent > 6/10 then 1
  else if health_percent > 3/10 then 2
  else 3

/-- The per-tick phase update of boss_behavior: an un-entered boss keeps
sliding in and skips the update (the early continue at line 588); an
entered boss gets its phase recomputed from health. -/
def boss_tick_phase (b : Boss) : Boss :=
  if !b.entered then b
  else { b with phase := boss_phase_of b.health b.max_health }

/-! ## Enemy difficulty scaling (src/entities/enemy.rs) -/

/-- EnemyType (src/entities/enemy.rs lines 53-66). -/
inductive EnemyType where
  | diamond
  | hexagon
  | small
  | eliteScout
  | eliteGunship
  | eliteGuard
deriving DecidableEq

/-- The (base_health, base_score, base_shoot_interval) triple of the match
in spawn_enemy_with_difficulty (src/entities/enemy.rs lines 222-246); the
geometry blueprint choice is rendering-only and omitted. -/
def enemy_base_stats : EnemyType → ℕ × ℕ × ℚ
  | .diamond => (2, 100, 2)
  | .hexagon => (5, 300, 3/2)
  | .small => (1, 50, 13/5)
  | .eliteScout => (10, 900, 14/5)
  | .eliteGunship => (14, 1200, 16/5)
  | .eliteGuard => (18, 1500, 18/5)

/-- The difficulty multiplier of spawn_enemies (src/entities/enemy.rs line
117): 1 + (level - 1) * 0.3. -/
def difficulty_for_level (level : ℕ) : ℚ :=
  1 + ((level : ℚ) - 1) * (3/10)

/-- The stats record produced by spawn_enemy_with_difficulty. -/
structure SpawnedEnemyStats where
  health : ℤ
  max_health : ℤ
  score_value : ℕ
  shoot_interval : ℚ
deriving DecidableEq

/-- The stat scaling of spawn_enemy_with_difficulty (src/entities/enemy.rs
lines 249-251 and 281-289): health = ceil(base_health * difficulty) (as
i32), score = (base_score * difficulty) as u32 (truncation toward zero,
saturating at 0), shoot_interval = max(base_interval / difficulty, 0.5);
max_health starts equal to health. -/
def spawn_enemy_stats (t : EnemyType) (difficulty : ℚ) : SpawnedEnemyStats :=
  let base := enemy_base_stats t
  let health : ℤ := ⌈(base.1 : ℚ) * difficulty⌉
  let score : ℕ := (⌊(base.2.1 : ℚ) * difficulty⌋).toNat
  let shoot_interval : ℚ := max (base.2.2 / difficulty) (1/2)
  { health := health, max_health := health, score_value := score,
    shoot_interval := shoot_interval }

/-! ## Weapon inventory (src/entities/weapons.rs) -/

/-- WeaponType (src/entities/weapons.rs lines 15-30). -/
inductive WeaponType where
  | shotgun
  | rocket
  | laser
  | homing
  | lightning
  | aura
  | beam
deriving DecidableEq

/-- WeaponType::base_cooldown (src/entities/weapons.rs lines 109-121). -/
def WeaponType.base_cooldown : WeaponType → ℚ
  | .shotgun => 3/20
  | .rocket => 3/5
  | .laser => 1/4
  | .homing => 3/20
  | .lightning => 1/2
  | .aura => 0
  | .beam => 2

/-- Weapon (src/entities/weapons.rs lines 75-81). -/
structure Weapon where
  weapon_type : WeaponType
  level : ℕ
  cooldown : ℚ
  timer : ℚ
deriving DecidableEq

/-- Weapon::new (src/entities/weapons.rs lines 84-91). -/
def Weapon.new (t : WeaponType) : Weapon :=
  { weapon_type := t, level := 1, cooldown := t.base_cooldown, timer := 0 }

/-- Weapon::level_up (src/entities/weapons.rs lines 99-106): below level 5
the level rises and the cooldown becomes base * (1 - 0.1 * (new level - 1));
at level 5 nothing changes. -/
def Weapon.level_up (w : Weapon) : Weapon :=
  if w.level < 5 then
    let level := w.level + 1
    { w with
      level := level
      cooldown := w.weapon_type.base_cooldown * (1 - (1/10) * ((level : ℚ) - 1)) }
  else w

/-- WeaponInventory (src/entities/weapons.rs lines 124-128). -/
structure WeaponInventory where
  weapons : List Weapon
  has_default_bullet : Bool
deriving DecidableEq

/-- WeaponInventory::new (src/entities/weapons.rs lines 131-136). -/
def WeaponInventory.new : WeaponInventory :=
  { weapons := [], has_default_bullet := true }

/-- The effect of get_weapon_mut followed by level_up in add_or_upgrade: the
first list entry of the given type is upgraded, the rest is untouched. -/
def upgrade_first : List Weapon → WeaponType → List Weapon
  | [], _ => []
  | w :: ws, t => if w.weapon_type = t then w.level_up :: ws else w :: upgrade_first ws t

/-- WeaponInventory::add_or_upgrade (src/entities/weapons.rs lines 166-178):
acquiring any non-Aura weapon clears has_default_bullet; an owned type is
leveled up in place; a new type is appended only while fewer than 5 weapons
are held. -/
def WeaponInventory.add_or_upgrade (inv : WeaponInventory) (t : WeaponType) : WeaponInventory :=
  let hd := if inv.has_default_bullet && !(t = WeaponType.aura) then false
            else inv.has_default_bullet
  if inv.weapons.any fun w => w.weapon_type = t then
    { weapons := upgrade_first inv.weapons t, has_default_bullet := hd }
  else if inv.weapons.length < 5 then
    { weapons := inv.weapons ++ [Weapon.new t], has_default_bullet := hd }
  else
    { weapons := inv.weapons, has_default_bullet := hd }

/-- The inventory invariant claimed by the spec: one record per type, levels
between 1 and 5, at most 5 records. -/
def inventory_invariant (inv : WeaponInventory) : Prop :=
  (inv.weapons.map Weapon.weapon_type).Nodup
    ∧ (∀ w ∈ inv.weapons, 1 ≤ w.level ∧ w.level ≤ 5)
    ∧ inv.weapons.length ≤ 5

instance (inv : WeaponInventory) : Decidable (inventory_invariant inv) := by
  unfold inventory_invariant; infer_instance

/-! ## Pierce and hit lists (src/entities/weapons.rs, enemy.rs, boss.rs) -/

/-- The u32::MAX sentinel marking infinite pierce
(src/entities/weapons.rs line 217). -/
def pierce_infinite : ℕ := 2 ^ 32 - 1

/-- The projectile-side state the collision handlers read and write: the
optional Pierce component (remaining : u32) and the optional HitList
component (entities already damaged). -/
structure WeaponBulletState where
  pierce : Option ℕ
  hit_list : Option (List ℕ)
deriving DecidableEq

/-- One qualifying collision of a WeaponBullet (non-rocket) with an enemy,
from enemy_collision_handler (src/entities/enemy.rs lines 502-598): first
the HitList de-duplication (lines 507-512; a target already present is
skipped entirely, otherwise it is recorded), then the damage is applied and
the Pierce component decides despawning (lines 583-598): no Pierce kills
the bullet, the infinite sentinel keeps it, remaining > 1 decrements and
keeps it, otherwise remaining is zeroed and the bullet despawns.  Returns
(new bullet state, damage applied?, bullet despawned?). -/
def weapon_bullet_hit (wb : WeaponBulletState) (target : ℕ) :
    WeaponBulletState × Bool × Bool :=
  let proceed : WeaponBulletState → WeaponBulletState × Bool × Bool := fun wb =>
    match wb.pierce with
    | none => (wb, true, true)
    | some r =>
      if r = pierce_infinite then (wb, true, false)
      else if r > 1 then ({ wb with pierce := some (r - 1) }, true, false)
      else ({ wb with pierce := some 0 }, true, true)
  match wb.hit_list with
  | some hl =>
    if target ∈ hl then (wb, false, false)
    else proceed { wb with hit_list := some (hl ++ [target]) }
  | none => proceed wb

/-- The same logic in boss_collision_handler (src/entities/boss.rs lines
895-932); the only difference is that the final branch despawns without
writing remaining = 0 first. -/
def boss_weapon_bullet_hit (wb : WeaponBulletState) (target : ℕ) :
    WeaponBulletState × Bool × Bool :=
  let proceed : WeaponBulletState → WeaponBulletState × Bool × Bool := fun wb =>
    match wb.pierce with
    | none => (wb, true, true)
    | some r =>
      if r = pierce_infinite then (wb, true, false)
      else if r > 1 then ({ wb with pierce := some (r - 1) }, true, false)
      else (wb, true, true)
  match wb.hit_list with
  | some hl =>
    if target ∈ hl then (wb, false, false)
    else proceed { wb with hit_list := some (hl ++ [target]) }
  | none => proceed wb

/-- One tick of enemy_collision_handler for a single weapon bullet: the
system reads every collision event of the tick's batch in one run.
commands.entity(..).despawn() only queues a command that is applied after
the system finishes, so the bullet stays queryable through the whole
batch: its Pierce / HitList state threads live through every event and the
despawns merely accumulate into a flag that takes effect at the end of the
tick.  Returns (state after the batch, targets damaged in order, despawn
queued?). -/
def tick_events (wb : WeaponBulletState) : List ℕ → WeaponBulletState × List ℕ × Bool
  | [] => (wb, [], false)
  | t :: ts =>
    let r := weapon_bullet_hit wb t
    let rest := tick_events r.1 ts
    (rest.1, (if r.2.1 then [t] else []) ++ rest.2.1, r.2.2 || rest.2.2)

/-- Run a WeaponBullet through successive ticks, one event batch per tick:
a despawn queued in a batch is applied when the tick ends, so later ticks
find no bullet (the weapon_bullets.get at enemy.rs line 502 fails) and are
skipped.  Returns the damaged targets across all ticks. -/
def run_ticks (wb : WeaponBulletState) : List (List ℕ) → List ℕ
  | [] => []
  | evs :: ticks =>
    let r := tick_events wb evs
    r.2.1 ++ (if r.2.2 then [] else run_ticks r.1 ticks)

/-- Whether the bullet is despawned during some tick of the run. -/
def run_ticks_despawned (wb : WeaponBulletState) : List (List ℕ) → Bool
  | [] => false
  | evs :: ticks =>
    let r := tick_events wb evs
    r.2.2 || run_ticks_despawned r.1 ticks

/-- A fresh Pierce { remaining = 3 } weapon bullet carrying a HitList, as in
claim C2. -/
def pierce3_bullet : WeaponBulletState :=
  { pierce := some 3, hit_list := some [] }

/-! ## Damage application (src/entities/enemy.rs, player.rs) -/

/-- Enemy (src/entities/enemy.rs lines 42-49), restricted to the fields the
damage paths touch. -/
structure Enemy where
  health : ℤ
  max_health : ℤ
  score_value : ℕ
deriving DecidableEq

/-- apply_direct_damage (src/entities/enemy.rs lines 605-636): subtract the
damage; on death the enemy despawns and the kill is credited with
add_score_only during a boss fight (no experience, no drop) and add_score
otherwise.  The 2% coin drop only spawns a power-up entity and never
touches GameData, so it is omitted.  Returns the updated GameData and the
surviving enemy, if any. -/
def apply_direct_damage (gd : GameData) (boss_active : Bool) (enemy : Enemy)
    (damage : ℤ) : GameData × Option Enemy :=
  let health := enemy.health - damage
  if health ≤ 0 then
    (if boss_active then gd.add_score_only enemy.score_value
     else gd.add_score enemy.score_value, none)
  else
    (gd, some { enemy with health := health })

/-- The per-enemy kill resolution of the rocket expiry path in
update_rocket_bullets (src/entities/player.rs lines 464-485): unlike
apply_direct_damage it always credits the kill with add_score, with no
boss_active check. -/
def rocket_expiry_damage_enemy (gd : GameData) (enemy : Enemy) (damage : ℤ) :
    GameData × Option Enemy :=
  let health := enemy.health - damage
  if health ≤ 0 then
    (gd.add_score enemy.score_value, none)
  else
    (gd, some { enemy with health := health })

/-- The enemy branch of the damage settlement loop of
resolve_lightning_casts (src/entities/player.rs lines 711-726): the kill is
always credited with add_score, with no boss_active check, even though the
system holds the BossState resource (it is returned unchanged here). -/
def lightning_settle_enemy (gd : GameData) (bs : BossState) (enemy : Enemy)
    (damage : ℤ) : GameData × BossState × Option Enemy :=
  let health := enemy.health - damage
  if health ≤ 0 then
    (gd.add_score enemy.score_value, bs, none)
  else
    (gd, bs, some { enemy with health := health })

/-! ## Rocket AOE (src/entities/player.rs, enemy.rs) -/

/-- An enemy entity as seen by the AOE queries: id, position and Enemy
component. -/
structure WorldEnemy where
  id : ℕ
  pos : ℚ × ℚ
  health : ℤ
  max_health : ℤ
  score_value : ℕ
deriving DecidableEq

/-- The target collection shared by both explosion sites
(src/entities/player.rs lines 453-463 and src/entities/enemy.rs lines
523-534): the ids of every enemy whose center has squared distance at most
explosion_radius^2 from the rocket position. -/
def rocket_targets (center : ℚ × ℚ) (explosion_radius : ℚ)
    (enemies : List WorldEnemy) : List ℕ :=
  (enemies.filter fun e => dist_sq e.pos center ≤ explosion_radius * explosion_radius).map
    (fun e => e.id)

/-- The shard count of the explosion particle burst (src/entities/player.rs
line 487 and src/entities/enemy.rs line 546):
((explosion_radius / 4.0) as u32).clamp(10, 28).  The f32-to-u32 cast
truncates toward zero and saturates at 0, which is Int.toNat of the
floor. -/
def rocket_shard_count (explosion_radius : ℚ) : ℕ :=
  min (max (⌊explosion_radius / 4⌋).toNat 10) 28

/-- One step of the explosion damage loop, parameterized by how a kill is
credited: the expiry loop in update_rocket_bullets credits with add_score,
the contact path in enemy_collision_handler goes through
apply_direct_damage and is boss-aware.  The enemy with the target id takes
the damage; on death it despawns and the credit function runs. -/
def explosion_damage_step (credit : GameData → ℕ → GameData) (damage : ℤ)
    (acc : GameData × List WorldEnemy) (target_id : ℕ) : GameData × List WorldEnemy :=
  match acc.2.find? fun e => e.id = target_id with
  | none => acc
  | some e =>
    let health := e.health - damage
    if health ≤ 0 then
      (credit acc.1 e.score_value, acc.2.filter fun e2 => !(e2.id = target_id))
    else
      (acc.1, acc.2.map fun e2 => if e2.id = target_id then { e2 with health := health } else e2)

/-- The full explosion of the rocket expiry path (src/entities/player.rs
lines 452-495): collect targets by radius, damage each of them, then
despawn the rocket unconditionally (the final Bool; there is no branch
around the despawn at line 494 and the Pierce component is never
consulted). -/
def rocket_expiry_explode (gd : GameData) (center : ℚ × ℚ)
    (explosion_radius : ℚ) (damage : ℤ) (enemies : List WorldEnemy) :
    (GameData × List WorldEnemy) × Bool :=
  ((rocket_targets center explosion_radius enemies).foldl
    (explosion_damage_step (fun g s => g.add_score s) damage) (gd, enemies), true)

/-- The full explosion of the rocket contact path in
enemy_collision_handler (src/entities/enemy.rs lines 515-555): same target
collection, damage through apply_direct_damage (boss-aware), despawn of the
rocket unconditional (line 553; the Pierce branch at lines 583-594 is never
reached because of the continue). -/
def rocket_contact_explode (gd : GameData) (boss_active : Bool)
    (center : ℚ × ℚ) (explosion_radius : ℚ) (damage : ℤ)
    (enemies : List WorldEnemy) : (GameData × List WorldEnemy) × Bool :=
  ((rocket_targets center explosion_radius enemies).foldl
    (explosion_damage_step
      (fun g s => if boss_active then g.add_score_only s else g.add_score s) damage)
    (gd, enemies), true)

/-! ## Lightning chain (src/entities/player.rs lines 646-739,
src/entities/weapons.rs lines 624-644) -/

/-- LightningCast (src/entities/weapons.rs lines 397-401). -/
structure LightningCast where
  jumps : ℕ
  range : ℚ
  damage : ℤ
deriving DecidableEq

/-- spawn_lightning (src/entities/weapons.rs lines 624-644): jumps = 3 +
level, range = min(280 + 50 * level, 600), damage = 3 + level. -/
def spawn_lightning (level : ℕ) : LightningCast :=
  { jumps := 3 + level
    range := min (280 + 50 * (level : ℚ)) 600
    damage := 3 + (level : ℤ) }

/-- The range filter of resolve_lightning_casts (src/entities/player.rs
lines 666 and 680): the source tests distance(cur) ≤ range where distance
is the Euclidean (square-root) distance; over the reals
sqrt d ≤ r ↔ (d ≤ r^2 ∧ 0 ≤ r) (Real.sqrt_le_iff), which is the exact
decidable form used here (within_range_iff_sqrt below proves the
equivalence). -/
def within_range (cur p : ℚ × ℚ) (range : ℚ) : Bool :=
  decide (dist_sq p cur ≤ range * range ∧ 0 ≤ range)

/-- One accumulation step of Iterator::min_by with the squared-distance
comparator of resolve_lightning_casts: the running minimum is replaced only
by a strictly smaller key, so the first of equally minimal elements wins,
matching min_by's tie behavior. -/
def min_by_step (cur : ℚ × ℚ) (acc : Option (ℕ × (ℚ × ℚ))) (t : ℕ × (ℚ × ℚ)) :
    Option (ℕ × (ℚ × ℚ)) :=
  match acc with
  | none => some t
  | some b => if dist_sq t.2 cur < dist_sq b.2 cur then some t else acc

/-- Iterator::min_by over a candidate list with the squared-distance key. -/
def min_by_dist (cur : ℚ × ℚ) (cands : List (ℕ × (ℚ × ℚ))) : Option (ℕ × (ℚ × ℚ)) :=
  cands.foldl (min_by_step cur) none

/-- The filter + min_by selection applied to each of the two target pools
(src/entities/player.rs lines 661-687): keep the targets not yet hit and
within range, then take the first one of minimal squared distance. -/
def select_nearest (cur : ℚ × ℚ) (hit_ids : List ℕ) (range : ℚ)
    (targets : List (ℕ × (ℚ × ℚ))) : Option (ℕ × (ℚ × ℚ)) :=
  min_by_dist cur
    (targets.filter fun t => !(hit_ids.contains t.1) && within_range cur t.2 range)

/-- One hop decision of the chain walk (src/entities/player.rs lines
689-698): nearest unhit enemy and nearest unhit boss, combined by
if da <= db then enemy else boss. -/
def chain_step (enemies bosses : List (ℕ × (ℚ × ℚ))) (range : ℚ)
    (cur : ℚ × ℚ) (hit_ids : List ℕ) : Option (ℕ × (ℚ × ℚ)) :=
  match select_nearest cur hit_ids range enemies,
        select_nearest cur hit_ids range bosses with
  | none, none => none
  | some v, none => some v
  | none, some v => some v
  | some a, some b =>
    if dist_sq a.2 cur ≤ dist_sq b.2 cur then some a else some b

/-- The while loop of resolve_lightning_casts (src/entities/player.rs lines
660-708): with jumps remaining, pick the next target from the current
position; stop when none qualifies; otherwise record the hop, advance to
the target position and decrement the remaining jumps.  Returns the
recorded hit list (id and position per hop). -/
def chain_walk (enemies bosses : List (ℕ × (ℚ × ℚ))) (range : ℚ) :
    ℕ → (ℚ × ℚ) → List (ℕ × (ℚ × ℚ)) → List (ℕ × (ℚ × ℚ))
  | 0, _, hit => hit
  | n + 1, cur, hit =>
    match chain_step enemies bosses range cur (hit.map fun h => h.1) with
    | none => hit
    | some t => chain_walk enemies bosses range n t.2 (hit ++ [t])

/-- The health mutation of the damage settlement loop of
resolve_lightning_casts (src/entities/player.rs lines 711-713): every
recorded target takes cast.damage once per occurrence of its id in the hit
list (kill resolution of a dead target is lightning_settle_enemy above). -/
def lightning_apply_damage (damage : ℤ) (enemies : List WorldEnemy)
    (hit_ids : List ℕ) : List WorldEnemy :=
  hit_ids.foldl
    (fun acc h => acc.map fun e => if e.id = h then { e with health := e.health - damage } else e)
    enemies

/-! ## Helper lemmas -/

theorem dist_sq_comm (a b : ℚ × ℚ) : dist_sq a b = dist_sq b a := by
  unfold dist_sq; ring

theorem circle_circle_collision_comm (pa : ℚ × ℚ) (ra : ℝ) (pb : ℚ × ℚ) (rb : ℝ) :
    circle_circle_collision pa ra pb rb ↔ circle_circle_collision pb rb pa ra := by
  unfold circle_circle_collision
  rw [dist_sq_comm, add_comm]

theorem rect_rect_collision_comm (pa : ℚ × ℚ) (wa ha : ℚ) (pb : ℚ × ℚ) (wb hb : ℚ) :
    rect_rect_collision pa wa ha pb wb hb ↔ rect_rect_collision pb wb hb pa wa ha := by
  unfold rect_rect_collision
  constructor <;> (rintro ⟨h1, h2, h3, h4⟩; exact ⟨h2, h1, h4, h3⟩)

/-! ## C9 — collision symmetry -/

/-- C9: the circle-circle overlap test is order-independent, and
check_collision gives the same answer with its two (position, shape)
arguments swapped, for every pair of shape variants. -/
theorem check_collision_symmetric :
    (∀ (pa : ℚ × ℚ) (ra : ℝ) (pb : ℚ × ℚ) (rb : ℝ),
      circle_circle_collision pa ra pb rb ↔ circle_circle_collision pb rb pa ra)
    ∧ ∀ (pa : ℚ × ℚ) (sa : CollisionShape) (pb : ℚ × ℚ) (sb : CollisionShape),
      check_collision pa sa pb sb ↔ check_collision pb sb pa sa := by
  refine ⟨circle_circle_collision_comm, fun pa sa pb sb => ?_⟩
  cases sa <;> cases sb <;>
    simp only [check_collision] <;>
    first
      | exact Iff.rfl
      | exact circle_circle_collision_comm ..
      | exact rect_rect_collision_comm ..

/-! ## C4 — mask gating -/

/-- C4: for a pair of collidable entities, if neither mask permits the
other's layer then detect_collisions emits no event for the pair regardless
of overlap; conversely an overlapping pair with at least one permissive
mask gets an event. -/
theorem collision_mask_gating (es : List CollEntity) (i j : ℕ) (a b : CollEntity)
    (ha : es[i]? = some a) (hb : es[j]? = some b) :
    (a.mask.can_collide_with b.layer = false ∧ b.mask.can_collide_with a.layer = false →
      ¬ emits_collision_event es i j)
    ∧ (i < j →
        a.mask.can_collide_with b.layer = true ∨ b.mask.can_collide_with a.layer = true →
        check_collision a.pos a.shape b.pos b.shape →
        emits_collision_event es i j) := by
  constructor
  · rintro ⟨hma, hmb⟩ ⟨a2, b2, ha2, hb2, _, hmask, _⟩
    rw [ha] at ha2
    rw [hb] at hb2
    cases ha2
    cases hb2
    rcases hmask with h | h
    · rw [hma] at h; exact Bool.false_ne_true h
    · rw [hmb] at h; exact Bool.false_ne_true h
  · intro hij hmask hcol
    exact ⟨a, b, ha, hb, hij, hmask, hcol⟩

/-- Witness for C4: two overlapping enemies carrying enemy_mask (which
denies the enemy layer on both sides) produce no event, while an enemy and
a player bullet at the same positions do. -/
theorem collision_mask_gating_witness :
    (¬ emits_collision_event
      [{ id := 1, pos := (0, 0), shape := .circle 10, layer := .enemy,
         mask := CollisionMask.enemy_mask },
       { id := 2, pos := (3, 0), shape := .circle 5, layer := .enemy,
         mask := CollisionMask.enemy_mask }] 0 1)
    ∧ emits_collision_event
      [{ id := 1, pos := (0, 0), shape := .circle 10, layer := .enemy,
         mask := CollisionMask.enemy_mask },
       { id := 2, pos := (3, 0), shape := .circle 5, layer := .playerBullet,
         mask := CollisionMask.player_bullet_mask }] 0 1 := by
  constructor
  · exact (collision_mask_gating _ 0 1
      { id := 1, pos := (0, 0), shape := .circle 10, layer := .enemy,
        mask := CollisionMask.enemy_mask }
      { id := 2, pos := (3, 0), shape := .circle 5, layer := .enemy,
        mask := CollisionMask.enemy_mask } rfl rfl).1 ⟨rfl, rfl⟩
  · refine (collision_mask_gating _ 0 1
      { id := 1, pos := (0, 0), shape := .circle 10, layer := .enemy,
        mask := CollisionMask.enemy_mask }
      { id := 2, pos := (3, 0), shape := .circle 5, layer := .playerBullet,
        mask := CollisionMask.player_bullet_mask } rfl rfl).2 (by norm_num) (Or.inl rfl) ?_
    show circle_circle_collision (0, 0) ((10 : ℚ) : ℝ) (3, 0) ((5 : ℚ) : ℝ)
    unfold circle_circle_collision dist_sq
    norm_num

/-! ## C3 — boss phase from health -/

theorem boss_phase_of_1000 (h : ℤ) :
    boss_phase_of h 1000 = if 600 < h then 1 else if 300 < h then 2 else 3 := by
  unfold boss_phase_of
  have c6 : ((6 : ℚ)/10 < (h : ℚ)/1000) ↔ 600 < h := by
    rw [lt_div_iff₀ (show (0 : ℚ) < 1000 by norm_num),
      show (6 : ℚ)/10 * 1000 = ((600 : ℤ) : ℚ) by norm_num, Int.cast_lt]
  have c3 : ((3 : ℚ)/10 < (h : ℚ)/1000) ↔ 300 < h := by
    rw [lt_div_iff₀ (show (0 : ℚ) < 1000 by norm_num),
      show (3 : ℚ)/10 * 1000 = ((300 : ℤ) : ℚ) by norm_num, Int.cast_lt]
  push_cast
  simp only [gt_iff_lt, c6, c3]

/-- C3: for an entered boss the phase is recomputed each tick purely from
health / max_health with thresholds 0.6 and 0.3; for max_health = 1000 the
phase intervals are exactly (600, _] for 1, (300, 600] for 2, (-inf, 300]
for 3, and health 601 gives phase 1 while 600 gives phase 2. -/
theorem boss_phase_pure_function_of_ratio :
    (∀ h : ℤ, boss_phase_of h 1000 = 1 ↔ 600 < h)
    ∧ (∀ h : ℤ, boss_phase_of h 1000 = 2 ↔ 300 < h ∧ h ≤ 600)
    ∧ (∀ h : ℤ, boss_phase_of h 1000 = 3 ↔ h ≤ 300)
    ∧ boss_phase_of 601 1000 = 1
    ∧ boss_phase_of 600 1000 = 2
    ∧ (∀ h m h2 m2 : ℤ, 0 < m → 0 < m2 → h * m2 = h2 * m →
        boss_phase_of h m = boss_phase_of h2 m2)
    ∧ (∀ b : Boss, b.entered = true →
        (boss_tick_phase b).phase = boss_phase_of b.health b.max_health) := by
  refine ⟨fun h => ?_, fun h => ?_, fun h => ?_, ?_, ?_, ?_, ?_⟩
  · rw [boss_phase_of_1000]; split_ifs with h1 h2 <;> simp <;> omega
  · rw [boss_phase_of_1000]; split_ifs with h1 h2 <;> simp <;> omega
  · rw [boss_phase_of_1000]; split_ifs with h1 h2 <;> simp <;> omega
  · rw [boss_phase_of_1000]; norm_num
  · rw [boss_phase_of_1000]; norm_num
  · intro h m h2 m2 hm hm2 hcross
    have hq : (h : ℚ) / (m : ℚ) = (h2 : ℚ) / (m2 : ℚ) := by
      rw [div_eq_div_iff (Int.cast_ne_zero.mpr hm.ne') (Int.cast_ne_zero.mpr hm2.ne')]
      exact_mod_cast hcross
    unfold boss_phase_of
    rw [hq]
  · intro b hb
    unfold boss_tick_phase
    rw [hb]
    simp

/-- Witness for C3: concrete instances of the threshold equivalences, the
ratio purity (601/1000 equals 1202/2000) and the entered-boss tick. -/
theorem boss_phase_pure_function_of_ratio_witness :
    boss_phase_of 601 1000 = boss_phase_of 1202 2000
    ∧ boss_phase_of 601 1000 = 1
    ∧ (boss_tick_phase
        { health := 600, max_health := 1000, phase := 1, score_value := 0,
          entered := true }).phase = 2 := by
  obtain ⟨t1, _, _, h601, h600, purity, tick⟩ := boss_phase_pure_function_of_ratio
  refine ⟨purity 601 1000 1202 2000 (by norm_num) (by norm_num) (by norm_num), h601, ?_⟩
  rw [tick _ rfl]
  exact h600

/-! ## C7 — difficulty scaling -/

/-- C7: difficulty at player level 7 is 2.8; a Diamond enemy spawned at that
difficulty gets health ceil(2 * 2.8) = 6 and score floor(100 * 2.8) = 280;
in general health = ceil(base_health * difficulty), score =
floor(base_score * difficulty) and shoot_interval =
max(base_interval / difficulty, 0.5). -/
theorem difficulty_scaling_determinism :
    difficulty_for_level 7 = 14/5
    ∧ (spawn_enemy_stats .diamond (difficulty_for_level 7)).health = 6
    ∧ (spawn_enemy_stats .diamond (difficulty_for_level 7)).score_value = 280
    ∧ ∀ (t : EnemyType) (d : ℚ),
        (spawn_enemy_stats t d).health = ⌈((enemy_base_stats t).1 : ℚ) * d⌉
        ∧ (spawn_enemy_stats t d).max_health = (spawn_enemy_stats t d).health
        ∧ (spawn_enemy_stats t d).score_value = (⌊((enemy_base_stats t).2.1 : ℚ) * d⌋).toNat
        ∧ (spawn_enemy_stats t d).shoot_interval = max ((enemy_base_stats t).2.2 / d) (1/2) := by
  refine ⟨by norm_num [difficulty_for_level], ?_, ?_, fun t d => ⟨rfl, rfl, rfl, rfl⟩⟩
  · show (⌈((2 : ℚ)) * difficulty_for_level 7⌉ : ℤ) = 6
    norm_num [difficulty_for_level]
    rw [Int.ceil_eq_iff]
    norm_num
  · show (⌊((100 : ℚ)) * difficulty_for_level 7⌋).toNat = 280
    norm_num [difficulty_for_level]
    rfl

/-! ## C1 — boss-fight anti-farm rule -/

theorem exp_for_level_one : exp_for_level 1 = 1300 := by
  unfold exp_for_level
  rw [show 1690000 * 1 ^ 3 = 1690000 by norm_num]
  exact (Nat.eq_sqrt.mpr (by norm_num)).symm

/-- C1 counterexample: the claim fails for lightning-chain kills.  With a
boss fight active (BossState.active = true), a lightning chain killing a
regular enemy goes through the add_score path of resolve_lightning_casts,
which has no boss_active check: from 1299 experience at level 1 the
100-score kill pushes experience past the 1300 threshold, so experience
changes and a level-up fires, contradicting the claimed rule. -/
theorem anti_farm_rule_cex :
    ((lightning_settle_enemy ⟨0, 0, 1299, 1, false⟩ ⟨true, 500⟩ ⟨1, 2, 100⟩ 3).1.experience = 99)
    ∧ ((lightning_settle_enemy ⟨0, 0, 1299, 1, false⟩ ⟨true, 500⟩ ⟨1, 2, 100⟩ 3).1.player_level = 2)
    ∧ ((lightning_settle_enemy ⟨0, 0, 1299, 1, false⟩ ⟨true, 500⟩ ⟨1, 2, 100⟩ 3).2.2 = none) := by
  unfold lightning_settle_enemy GameData.add_score GameData.add_experience
  norm_num [exp_for_level_one]

/-- C1 (amended): the anti-farm rule holds for every kill resolved through
apply_direct_damage — plain Bullet hits, non-rocket WeaponBullet hits and
the rocket on-contact AOE of enemy_collision_handler: while boss_active,
the enemy's score_value is added to score but experience, player_level and
the upgrading gate are unchanged.  Kills from the rocket expiry AOE
(update_rocket_bullets) and from lightning chains (resolve_lightning_casts)
do not follow the rule: they go through add_score and grant experience even
during a boss fight. -/
theorem anti_farm_rule_amended (gd : GameData) (enemy : Enemy) (damage : ℤ)
    (hkill : enemy.health - damage ≤ 0) :
    (apply_direct_damage gd true enemy damage).1.score = gd.score + enemy.score_value
    ∧ (apply_direct_damage gd true enemy damage).1.experience = gd.experience
    ∧ (apply_direct_damage gd true enemy damage).1.player_level = gd.player_level
    ∧ (apply_direct_damage gd true enemy damage).1.upgrading = gd.upgrading
    ∧ (apply_direct_damage gd true enemy damage).2 = none := by
  unfold apply_direct_damage GameData.add_score_only
  rw [if_pos hkill]
  simp

/-- Witness for C1 (amended): a kill at the experience threshold leaves
experience and level untouched while boss_active. -/
theorem anti_farm_rule_amended_witness :
    ((apply_direct_damage ⟨0, 0, 1299, 1, false⟩ true ⟨1, 2, 100⟩ 3).1.score = 100)
    ∧ ((apply_direct_damage ⟨0, 0, 1299, 1, false⟩ true ⟨1, 2, 100⟩ 3).1.experience = 1299)
    ∧ ((apply_direct_damage ⟨0, 0, 1299, 1, false⟩ true ⟨1, 2, 100⟩ 3).1.player_level = 1) := by
  obtain ⟨h1, h2, h3, _, _⟩ :=
    anti_farm_rule_amended ⟨0, 0, 1299, 1, false⟩ ⟨1, 2, 100⟩ 3 (by norm_num)
  exact ⟨h1, h2, h3⟩

/-! ## C8 — weapon inventory invariant -/

theorem level_up_weapon_type (w : Weapon) : w.level_up.weapon_type = w.weapon_type := by
  unfold Weapon.level_up
  split <;> rfl

theorem level_up_level_bounds (w : Weapon) (h : 1 ≤ w.level ∧ w.level ≤ 5) :
    1 ≤ w.level_up.level ∧ w.level_up.level ≤ 5 := by
  unfold Weapon.level_up
  split
  · rename_i hlt
    exact ⟨Nat.le_add_left 1 _, hlt⟩
  · exact h

theorem upgrade_first_map_type (ws : List Weapon) (t : WeaponType) :
    (upgrade_first ws t).map Weapon.weapon_type = ws.map Weapon.weapon_type := by
  induction ws with
  | nil => rfl
  | cons w ws ih =>
    unfold upgrade_first
    split
    · simp [level_up_weapon_type]
    · simp [ih]

theorem mem_upgrade_first {w2 : Weapon} {ws : List Weapon} {t : WeaponType}
    (h : w2 ∈ upgrade_first ws t) : w2 ∈ ws ∨ ∃ w ∈ ws, w2 = w.level_up := by
  induction ws with
  | nil => simp [upgrade_first] at h
  | cons w ws ih =>
    unfold upgrade_first at h
    split at h
    · rcases List.mem_cons.mp h with h | h
      · exact Or.inr ⟨w, List.mem_cons_self .., h⟩
      · exact Or.inl (List.mem_cons_of_mem _ h)
    · rcases List.mem_cons.mp h with h | h
      · exact Or.inl (h ▸ List.mem_cons_self ..)
      · rcases ih h with h | ⟨w3, hw3, he⟩
        · exact Or.inl (List.mem_cons_of_mem _ h)
        · exact Or.inr ⟨w3, List.mem_cons_of_mem _ hw3, he⟩

theorem add_or_upgrade_weapons (inv : WeaponInventory) (t : WeaponType) :
    (inv.add_or_upgrade t).weapons =
      if (inv.weapons.any fun w => w.weapon_type = t) = true then upgrade_first inv.weapons t
      else if inv.weapons.length < 5 then inv.weapons ++ [Weapon.new t]
      else inv.weapons := by
  unfold WeaponInventory.add_or_upgrade
  by_cases h1 : (inv.weapons.any fun w => w.weapon_type = t) = true <;>
    by_cases h2 : inv.weapons.length < 5 <;>
    simp [h1, h2]

theorem add_or_upgrade_invariant (inv : WeaponInventory) (t : WeaponType)
    (h : inventory_invariant inv) : inventory_invariant (inv.add_or_upgrade t) := by
  obtain ⟨hnodup, hlevels, hlen⟩ := h
  unfold inventory_invariant
  rw [add_or_upgrade_weapons]
  by_cases h1 : (inv.weapons.any fun w => w.weapon_type = t) = true
  · rw [if_pos h1]
    refine ⟨?_, ?_, ?_⟩
    · rw [upgrade_first_map_type]
      exact hnodup
    · intro w hw
      rcases mem_upgrade_first hw with hmem | ⟨w2, hw2, he⟩
      · exact hlevels w hmem
      · exact he ▸ level_up_level_bounds w2 (hlevels w2 hw2)
    · have hsame : ((upgrade_first inv.weapons t).map Weapon.weapon_type).length =
          (inv.weapons.map Weapon.weapon_type).length := by
        rw [upgrade_first_map_type]
      simp only [List.length_map] at hsame
      omega
  · rw [if_neg h1]
    by_cases h2 : inv.weapons.length < 5
    · rw [if_pos h2]
      refine ⟨?_, ?_, ?_⟩
      · have ht : t ∉ inv.weapons.map Weapon.weapon_type := by
          simp only [List.mem_map]
          rintro ⟨w, hw, hwt⟩
          exact h1 (List.any_eq_true.mpr ⟨w, hw, by simp [hwt]⟩)
        simp only [List.map_append, List.map_cons, List.map_nil]
        exact List.Nodup.append hnodup (List.nodup_singleton _)
          (by simpa [List.disjoint_singleton] using ht)
      · intro w hw
        rcases List.mem_append.mp hw with hw | hw
        · exact hlevels w hw
        · simp only [List.mem_singleton] at hw
          subst hw
          exact ⟨le_refl _, by norm_num [Weapon.new]⟩
      · simp only [List.length_append, List.length_singleton]
        omega
    · rw [if_neg h2]
      exact ⟨hnodup, hlevels, hlen⟩

theorem foldl_add_or_upgrade_invariant (ts : List WeaponType) :
    ∀ inv : WeaponInventory, inventory_invariant inv →
      inventory_invariant (ts.foldl WeaponInventory.add_or_upgrade inv) := by
  induction ts with
  | nil => exact fun inv h => h
  | cons t ts ih =>
    intro inv h
    exact ih _ (add_or_upgrade_invariant inv t h)

/-- C8: starting from the empty inventory, any sequence of add_or_upgrade
calls keeps at most one record per WeaponType, all levels within 1..5 and
at most 5 records; upgrading a level-5 weapon changes nothing; a call with
a new type on a full inventory leaves the weapon list unchanged. -/
theorem weapon_inventory_invariant_preserved :
    (∀ ts : List WeaponType,
      inventory_invariant (ts.foldl WeaponInventory.add_or_upgrade WeaponInventory.new))
    ∧ (∀ w : Weapon, w.level = 5 → w.level_up = w)
    ∧ (∀ (inv : WeaponInventory) (t : WeaponType), inv.weapons.length = 5 →
        (∀ w ∈ inv.weapons, ¬ w.weapon_type = t) →
        (inv.add_or_upgrade t).weapons = inv.weapons) := by
  refine ⟨?_, ?_, ?_⟩
  · intro ts
    exact foldl_add_or_upgrade_invariant ts WeaponInventory.new (by decide)
  · intro w h
    unfold Weapon.level_up
    rw [if_neg (by omega)]
  · intro inv t hlen hno
    rw [add_or_upgrade_weapons]
    have hany : ¬ ((inv.weapons.any fun w => w.weapon_type = t) = true) := by
      simp only [List.any_eq_true, decide_eq_true_eq]
      rintro ⟨w, hw, he⟩
      exact hno w hw he
    rw [if_neg hany, if_neg (by omega)]

/-- Witness for C8: a run acquiring all seven weapon types (with repeats)
satisfies the invariant, and an inventory already holding five types
rejects a sixth. -/
theorem weapon_inventory_invariant_preserved_witness :
    inventory_invariant
      ([.shotgun, .shotgun, .rocket, .laser, .homing, .lightning, .beam,
        .aura, .shotgun].foldl WeaponInventory.add_or_upgrade WeaponInventory.new)
    ∧ (Weapon.level_up ⟨.beam, 5, 2, 0⟩ = ⟨.beam, 5, 2, 0⟩)
    ∧ ((WeaponInventory.add_or_upgrade
        ⟨[Weapon.new .shotgun, Weapon.new .rocket, Weapon.new .laser,
          Weapon.new .homing, Weapon.new .lightning], false⟩ .beam).weapons =
        [Weapon.new .shotgun, Weapon.new .rocket, Weapon.new .laser,
          Weapon.new .homing, Weapon.new .lightning]) := by
  obtain ⟨h1, h2, h3⟩ := weapon_inventory_invariant_preserved
  exact ⟨h1 _, h2 _ rfl, h3 _ _ (by decide) (by decide)⟩

/-! ## C2 — pierce monotonicity and hit-list de-duplication -/

theorem weapon_bullet_hit_fresh (n : ℕ) (hl : List ℕ) (t : ℕ) (ht : t ∉ hl)
    (hmax : n < pierce_infinite) :
    weapon_bullet_hit ⟨some n, some hl⟩ t =
      if 1 < n then (⟨some (n - 1), some (hl ++ [t])⟩, true, false)
      else (⟨some 0, some (hl ++ [t])⟩, true, true) := by
  unfold weapon_bullet_hit
  simp only [if_neg ht, if_neg (Nat.ne_of_lt hmax)]

theorem weapon_bullet_hit_already (wb : WeaponBulletState) (hl : List ℕ) (t : ℕ)
    (hw : wb.hit_list = some hl) (ht : t ∈ hl) :
    weapon_bullet_hit wb t = (wb, false, false) := by
  unfold weapon_bullet_hit
  rw [hw]
  simp only [if_pos ht]

theorem boss_weapon_bullet_hit_already (wb : WeaponBulletState) (hl : List ℕ) (t : ℕ)
    (hw : wb.hit_list = some hl) (ht : t ∈ hl) :
    boss_weapon_bullet_hit wb t = (wb, false, false) := by
  unfold boss_weapon_bullet_hit
  rw [hw]
  simp only [if_pos ht]

theorem tick_events_singleton (wb : WeaponBulletState) (t : ℕ) :
    tick_events wb [t] =
      ((weapon_bullet_hit wb t).1,
       (if (weapon_bullet_hit wb t).2.1 then [t] else []),
       (weapon_bullet_hit wb t).2.2) := by
  unfold tick_events tick_events
  simp

theorem tick_events_fresh (ts : List ℕ) :
    ∀ (n : ℕ) (hl : List ℕ), n < pierce_infinite → ts.Nodup →
      (∀ t ∈ ts, t ∉ hl) →
      (tick_events ⟨some n, some hl⟩ ts).2.1 = ts
      ∧ ((tick_events ⟨some n, some hl⟩ ts).2.2 = true ↔
          n ≤ ts.length ∧ 1 ≤ ts.length) := by
  induction ts with
  | nil =>
    intro n hl _ _ _
    refine ⟨rfl, ?_⟩
    simp [tick_events]
  | cons t ts ih =>
    intro n hl hmax hnodup hfresh
    have hthl : t ∉ hl := hfresh t (List.mem_cons_self ..)
    have hstep := weapon_bullet_hit_fresh n hl t hthl hmax
    have hfresh2 : ∀ u ∈ ts, u ∉ hl ++ [t] := by
      intro u hu
      simp only [List.mem_append, List.mem_singleton]
      rintro (h | h)
      · exact hfresh u (List.mem_cons_of_mem _ hu) h
      · exact (List.nodup_cons.mp hnodup).1 (h ▸ hu)
    have hnd2 := (List.nodup_cons.mp hnodup).2
    by_cases h1 : 1 < n
    · rw [if_pos h1] at hstep
      obtain ⟨hdmg, hdesp⟩ := ih (n - 1) (hl ++ [t]) (by omega) hnd2 hfresh2
      constructor
      · simp only [tick_events, hstep]
        simp [hdmg]
      · simp only [tick_events, hstep]
        simp only [Bool.false_or]
        rw [hdesp]
        simp only [List.length_cons]
        omega
    · rw [if_neg h1] at hstep
      obtain ⟨hdmg, -⟩ := ih 0 (hl ++ [t]) (by norm_num [pierce_infinite]) hnd2 hfresh2
      constructor
      · simp only [tick_events, hstep]
        simp [hdmg]
      · simp only [tick_events, hstep]
        simp only [Bool.true_or, List.length_cons, true_iff]
        omega

theorem run_ticks_singletons (ts : List ℕ) :
    ∀ (m : ℕ) (hl : List ℕ), m + 1 < pierce_infinite → ts.Nodup →
      (∀ t ∈ ts, t ∉ hl) →
      run_ticks ⟨some (m + 1), some hl⟩ (ts.map fun t => [t]) = ts.take (m + 1)
      ∧ (run_ticks_despawned ⟨some (m + 1), some hl⟩ (ts.map fun t => [t]) = true ↔
          m + 1 ≤ ts.length) := by
  induction ts with
  | nil =>
    intro m hl _ _ _
    constructor
    · rfl
    · simp [run_ticks_despawned]
  | cons t ts ih =>
    intro m hl hmax hnodup hfresh
    have hthl : t ∉ hl := hfresh t (List.mem_cons_self ..)
    have hstep := weapon_bullet_hit_fresh (m + 1) hl t hthl hmax
    have htick := tick_events_singleton ⟨some (m + 1), some hl⟩ t
    rw [hstep] at htick
    match m with
    | 0 =>
      rw [if_neg (by omega)] at htick
      constructor
      · simp [run_ticks, List.map_cons, htick]
      · simp [run_ticks_despawned, List.map_cons, htick]
    | k + 1 =>
      rw [if_pos (by omega)] at htick
      have hfresh2 : ∀ u ∈ ts, u ∉ hl ++ [t] := by
        intro u hu
        simp only [List.mem_append, List.mem_singleton]
        rintro (h | h)
        · exact hfresh u (List.mem_cons_of_mem _ hu) h
        · exact (List.nodup_cons.mp hnodup).1 (h ▸ hu)
      have hih := ih (k + 1 - 1 + 1 - 1) (hl ++ [t]) (by omega)
        (List.nodup_cons.mp hnodup).2 hfresh2
      simp only [show k + 1 - 1 + 1 - 1 = k by omega] at hih
      have hsub : k + 1 + 1 - 1 = k + 1 := by omega
      rw [hsub] at htick
      constructor
      · simp only [run_ticks, List.map_cons, htick]
        simp [hih.1]
      · simp only [run_ticks_despawned, List.map_cons, htick]
        simp only [Bool.false_or]
        rw [hih.2]
        simp only [List.length_cons]
        omega

/-- C2 counterexample: the claim fails within one tick's event batch.  The
despawn of a weapon bullet is a deferred command applied only after
enemy_collision_handler finishes its run, and the handler applies the
damage (enemy.rs line 572) before the pierce check (line 583), so a
Pierce { remaining = 3 } bullet whose collider overlaps 4 distinct enemies
in the same tick damages all 4 of them — a 4th distinct qualifying hit is
damaged after the 3rd, contradicting the claimed never-more despawn. -/
theorem pierce_three_cex :
    (tick_events pierce3_bullet [11, 22, 33, 44]).2.1 = [11, 22, 33, 44]
    ∧ ((tick_events pierce3_bullet [11, 22, 33, 44]).2.1).length = 4
    ∧ (tick_events pierce3_bullet [11, 22, 33, 44]).2.2 = true := by
  refine ⟨by decide, by decide, by decide⟩

/-- C2 (amended): a Pierce { remaining = 3 } WeaponBullet with a HitList
despawns after exactly 3 distinct qualifying hits — never fewer, never
more — provided the hits arrive on distinct ticks (at most one qualifying
collision event per tick's batch).  Within a single tick's batch the
despawn command is deferred to the end of the tick and the damage precedes
the pierce check, so every distinct not-yet-hit enemy colliding in that
batch is damaged, even beyond the pierce budget, with the despawn queued
from the 3rd hit onward.  A target already recorded in the HitList is
never damaged again by that projectile, regardless of remaining pierce, in
the enemy handler and in the boss handler alike. -/
theorem pierce_three_amended :
    (∀ ts : List ℕ, ts.Nodup →
      run_ticks pierce3_bullet (ts.map fun t => [t]) = ts.take 3
      ∧ (run_ticks_despawned pierce3_bullet (ts.map fun t => [t]) = true ↔ 3 ≤ ts.length))
    ∧ (∀ ts : List ℕ, ts.Nodup →
      (tick_events pierce3_bullet ts).2.1 = ts
      ∧ ((tick_events pierce3_bullet ts).2.2 = true ↔ 3 ≤ ts.length))
    ∧ (∀ (wb : WeaponBulletState) (hl : List ℕ) (t : ℕ),
        wb.hit_list = some hl → t ∈ hl →
        weapon_bullet_hit wb t = (wb, false, false)
        ∧ boss_weapon_bullet_hit wb t = (wb, false, false)) := by
  refine ⟨?_, ?_, ?_⟩
  · intro ts hnodup
    exact run_ticks_singletons ts 2 [] (by norm_num [pierce_infinite]) hnodup (by simp)
  · intro ts hnodup
    obtain ⟨hdmg, hdesp⟩ :=
      tick_events_fresh ts 3 [] (by norm_num [pierce_infinite]) hnodup (by simp)
    refine ⟨hdmg, hdesp.trans ?_⟩
    omega
  · intro wb hl t hw ht
    exact ⟨weapon_bullet_hit_already wb hl t hw ht,
      boss_weapon_bullet_hit_already wb hl t hw ht⟩

/-- Witness for C2 (amended): four distinct targets on four separate ticks
— the first three are damaged and the bullet despawns at the end of the
third tick; the same four targets in a single tick are all damaged; a
target already on the hit list is skipped. -/
theorem pierce_three_amended_witness :
    run_ticks pierce3_bullet [[11], [22], [33], [44]] = [11, 22, 33]
    ∧ run_ticks_despawned pierce3_bullet [[11], [22], [33], [44]] = true
    ∧ (tick_events pierce3_bullet [11, 22, 33, 44]).2.1 = [11, 22, 33, 44]
    ∧ weapon_bullet_hit ⟨some 3, some [7]⟩ 7 = (⟨some 3, some [7]⟩, false, false) := by
  obtain ⟨hrun, htick, hskip⟩ := pierce_three_amended
  obtain ⟨h1, h2⟩ := hrun [11, 22, 33, 44] (by decide)
  refine ⟨h1, h2.mpr (by decide), (htick [11, 22, 33, 44] (by decide)).1,
    (hskip ⟨some 3, some [7]⟩ [7] 7 rfl (by decide)).1⟩

/-! ## C6 — rocket AOE -/

/-- Spec-side description of the explosion's effect on the enemy list:
every enemy whose center is within the radius (boundary inclusive) takes
the full damage once — despawning when it dies — and every other enemy is
untouched.  Written from the spec's words, to be compared with the
source-derived fold. -/
def aoe_spec_enemies (center : ℚ × ℚ) (radius : ℚ) (dmg : ℤ)
    (es : List WorldEnemy) : List WorldEnemy :=
  es.filterMap fun e =>
    if dist_sq e.pos center ≤ radius * radius then
      (if e.health - dmg ≤ 0 then none else some { e with health := e.health - dmg })
    else some e

/-- Spec-side description of the scoring: each in-radius enemy that dies is
credited exactly once, in list order. -/
def aoe_spec_credit (credit : GameData → ℕ → GameData) (gd : GameData)
    (center : ℚ × ℚ) (radius : ℚ) (dmg : ℤ) (es : List WorldEnemy) : GameData :=
  (es.filter fun e =>
      decide (dist_sq e.pos center ≤ radius * radius) && decide (e.health - dmg ≤ 0)).foldl
    (fun g e => credit g e.score_value) gd

theorem explosion_damage_step_cons (credit : GameData → ℕ → GameData) (dmg : ℤ)
    (gd : GameData) (x : WorldEnemy) (cur : List WorldEnemy) (t : ℕ)
    (hxt : ¬ x.id = t) :
    explosion_damage_step credit dmg (gd, x :: cur) t =
      ((explosion_damage_step credit dmg (gd, cur) t).1,
       x :: (explosion_damage_step credit dmg (gd, cur) t).2) := by
  unfold explosion_damage_step
  simp only
  rw [List.find?_cons_of_neg _ (by simpa using hxt)]
  cases hfind : List.find? (fun e => e.id = t) cur with
  | none => simp [hfind]
  | some e =>
    simp only [hfind]
    split
    · simp [List.filter_cons, hxt]
    · simp [hxt]

theorem explosion_fold_cons (credit : GameData → ℕ → GameData) (dmg : ℤ)
    (tids : List ℕ) :
    ∀ (gd : GameData) (x : WorldEnemy) (cur : List WorldEnemy),
      (∀ tid ∈ tids, ¬ x.id = tid) →
      tids.foldl (explosion_damage_step credit dmg) (gd, x :: cur) =
        ((tids.foldl (explosion_damage_step credit dmg) (gd, cur)).1,
         x :: (tids.foldl (explosion_damage_step credit dmg) (gd, cur)).2) := by
  induction tids with
  | nil => intro gd x cur _; rfl
  | cons t ts ih =>
    intro gd x cur hx
    simp only [List.foldl_cons]
    rw [explosion_damage_step_cons credit dmg gd x cur t (hx t (List.mem_cons_self ..))]
    exact ih _ x _ (fun tid h => hx tid (List.mem_cons_of_mem _ h))

theorem mem_of_mem_rocket_targets {center : ℚ × ℚ} {radius : ℚ}
    {es : List WorldEnemy} {tid : ℕ} (h : tid ∈ rocket_targets center radius es) :
    tid ∈ es.map WorldEnemy.id := by
  unfold rocket_targets at h
  rcases List.mem_map.mp h with ⟨e2, he2, hide⟩
  exact hide ▸ List.mem_map_of_mem _ (List.mem_of_mem_filter he2)

theorem explode_targets_characterization (credit : GameData → ℕ → GameData)
    (center : ℚ × ℚ) (radius : ℚ) (dmg : ℤ) :
    ∀ (es : List WorldEnemy) (gd : GameData), (es.map WorldEnemy.id).Nodup →
      (rocket_targets center radius es).foldl (explosion_damage_step credit dmg) (gd, es) =
        (aoe_spec_credit credit gd center radius dmg es,
         aoe_spec_enemies center radius dmg es) := by
  intro es
  induction es with
  | nil => intro gd _; rfl
  | cons e rest ih =>
    intro gd hnodup
    have hid : e.id ∉ rest.map WorldEnemy.id := (List.nodup_cons.mp hnodup).1
    have hnodup2 := (List.nodup_cons.mp hnodup).2
    have htid : ∀ tid ∈ rocket_targets center radius rest, ¬ e.id = tid := by
      intro tid h heq
      exact hid (heq ▸ mem_of_mem_rocket_targets h)
    by_cases hin : dist_sq e.pos center ≤ radius * radius
    · have htg : rocket_targets center radius (e :: rest) =
          e.id :: rocket_targets center radius rest := by
        unfold rocket_targets
        rw [List.filter_cons]
        simp [hin]
      rw [htg, List.foldl_cons]
      by_cases hdead : e.health - dmg ≤ 0
      · have hstep : explosion_damage_step credit dmg (gd, e :: rest) e.id =
            (credit gd e.score_value, rest) := by
          unfold explosion_damage_step
          simp only
          rw [List.find?_cons_of_pos _ (by simp)]
          dsimp only
          rw [if_pos hdead]
          have hkeep : ∀ a ∈ rest, ((!decide (a.id = e.id)) = true) := by
            intro a ha
            simp only [Bool.not_eq_eq_eq_not, Bool.not_true, decide_eq_false_iff_not]
            intro hcontra
            exact hid (hcontra ▸ List.mem_map_of_mem _ ha)
          have hfe : (e :: rest).filter (fun e2 => !decide (e2.id = e.id)) = rest := by
            rw [List.filter_cons]
            rw [if_neg (by simp)]
            exact List.filter_eq_self.mpr hkeep
          rw [hfe]
        rw [hstep, ih _ hnodup2]
        unfold aoe_spec_credit aoe_spec_enemies
        rw [List.filter_cons, List.filterMap_cons]
        have hc : (decide (dist_sq e.pos center ≤ radius * radius)
            && decide (e.health - dmg ≤ 0)) = true := by simp [hin, hdead]
        rw [hc]
        rw [show (if dist_sq e.pos center ≤ radius * radius then
            (if e.health - dmg ≤ 0 then none
              else some { e with health := e.health - dmg }) else some e) =
            (none : Option WorldEnemy) by rw [if_pos hin, if_pos hdead]]
        simp only [if_true, List.foldl_cons]
      · have hstep : explosion_damage_step credit dmg (gd, e :: rest) e.id =
            (gd, { e with health := e.health - dmg } :: rest) := by
          unfold explosion_damage_step
          simp only
          rw [List.find?_cons_of_pos _ (by simp)]
          dsimp only
          rw [if_neg hdead]
          have hrest : ∀ a ∈ rest,
              (if a.id = e.id then { a with health := e.health - dmg } else a) = a := by
            intro a ha
            rw [if_neg]
            intro hcontra
            exact hid (hcontra ▸ List.mem_map_of_mem _ ha)
          have hme : (e :: rest).map
              (fun e2 => if e2.id = e.id then { e2 with health := e.health - dmg } else e2) =
              { e with health := e.health - dmg } :: rest := by
            rw [List.map_cons]
            congr 1
            · simp
            · conv_rhs => rw [← List.map_id rest]
              exact List.map_congr_left hrest
          rw [hme]
        rw [hstep]
        rw [explosion_fold_cons credit dmg _ gd _ rest
          (fun tid h => by simpa using htid tid h)]
        rw [ih gd hnodup2]
        unfold aoe_spec_credit aoe_spec_enemies
        rw [List.filter_cons, List.filterMap_cons]
        have hc : (decide (dist_sq e.pos center ≤ radius * radius)
            && decide (e.health - dmg ≤ 0)) = false := by simp [hin, hdead]
        rw [hc]
        rw [show (if dist_sq e.pos center ≤ radius * radius then
            (if e.health - dmg ≤ 0 then none
              else some { e with health := e.health - dmg }) else some e) =
            some { e with health := e.health - dmg } by rw [if_pos hin, if_neg hdead]]
        simp only [Bool.false_eq_true, if_false]
    · have htg : rocket_targets center radius (e :: rest) =
          rocket_targets center radius rest := by
        unfold rocket_targets
        rw [List.filter_cons]
        simp [hin]
      rw [htg, explosion_fold_cons credit dmg _ gd e rest htid, ih gd hnodup2]
      unfold aoe_spec_credit aoe_spec_enemies
      rw [List.filter_cons, List.filterMap_cons]
      have hc : (decide (dist_sq e.pos center ≤ radius * radius)
          && decide (e.health - dmg ≤ 0)) = false := by simp [hin]
      rw [hc]
      rw [show (if dist_sq e.pos center ≤ radius * radius then
          (if e.health - dmg ≤ 0 then none
            else some { e with health := e.health - dmg }) else some e) =
          some e from if_neg hin]
      simp only [Bool.false_eq_true, if_false]

theorem mem_rocket_targets (center : ℚ × ℚ) (radius : ℚ) (es : List WorldEnemy)
    (hnodup : (es.map WorldEnemy.id).Nodup) (e : WorldEnemy) (he : e ∈ es) :
    e.id ∈ rocket_targets center radius es ↔ dist_sq e.pos center ≤ radius * radius := by
  unfold rocket_targets
  constructor
  · intro h
    rcases List.mem_map.mp h with ⟨e2, he2, hide⟩
    rcases List.mem_filter.mp he2 with ⟨he2m, hcond⟩
    have heq : e2 = e := List.inj_on_of_nodup_map hnodup he2m he hide
    subst heq
    simpa using hcond
  · intro h
    exact List.mem_map_of_mem _ (List.mem_filter.mpr ⟨he, by simpa using h⟩)

theorem rocket_shard_count_bounds (r : ℚ) :
    10 ≤ rocket_shard_count r ∧ rocket_shard_count r ≤ 28 := by
  unfold rocket_shard_count
  omega

/-- C6: when a rocket expires (out of bounds or lifetime elapsed) or first
contacts an enemy, the damaged enemies are exactly those with squared
distance to the rocket at most explosion_radius^2 (boundary inclusive),
each taking the full weapon damage with no falloff; the particle burst
shard count is clamped to [10, 28]; and the rocket despawns unconditionally
on both paths — it never pierces. -/
theorem rocket_aoe_contract (gd : GameData) (center : ℚ × ℚ) (radius : ℚ)
    (dmg : ℤ) (es : List WorldEnemy) (hnodup : (es.map WorldEnemy.id).Nodup) :
    ((rocket_expiry_explode gd center radius dmg es).1.2 =
        aoe_spec_enemies center radius dmg es)
    ∧ ((rocket_expiry_explode gd center radius dmg es).1.1 =
        aoe_spec_credit (fun g s => g.add_score s) gd center radius dmg es)
    ∧ (∀ boss_active, (rocket_contact_explode gd boss_active center radius dmg es).1.2 =
        aoe_spec_enemies center radius dmg es)
    ∧ (∀ e ∈ es, e.id ∈ rocket_targets center radius es ↔
        dist_sq e.pos center ≤ radius * radius)
    ∧ (∀ r : ℚ, 10 ≤ rocket_shard_count r ∧ rocket_shard_count r ≤ 28)
    ∧ (rocket_expiry_explode gd center radius dmg es).2 = true
    ∧ ∀ boss_active, (rocket_contact_explode gd boss_active center radius dmg es).2 = true := by
  have hexp := explode_targets_characterization (fun g s => g.add_score s)
    center radius dmg es gd hnodup
  refine ⟨?_, ?_, ?_, mem_rocket_targets center radius es hnodup,
    rocket_shard_count_bounds, rfl, fun _ => rfl⟩
  · show ((rocket_targets center radius es).foldl
      (explosion_damage_step (fun g s => g.add_score s) dmg) (gd, es)).2 = _
    rw [hexp]
  · show ((rocket_targets center radius es).foldl
      (explosion_damage_step (fun g s => g.add_score s) dmg) (gd, es)).1 = _
    rw [hexp]
  · intro boss_active
    have hcon := explode_targets_characterization
      (fun g s => if boss_active then g.add_score_only s else g.add_score s)
      center radius dmg es gd hnodup
    show ((rocket_targets center radius es).foldl
      (explosion_damage_step
        (fun g s => if boss_active then g.add_score_only s else g.add_score s) dmg)
      (gd, es)).2 = _
    rw [hcon]

/-- Witness for C6: radius 5 explosion at the origin — the enemy at (3, 4)
sits exactly on the boundary (squared distance 25 = radius^2) and takes the
full damage, the enemy at (6, 0) is untouched, the dying enemy at (0, 1)
despawns; shard count for radius 200 clamps to 28. -/
theorem rocket_aoe_contract_witness :
    ((rocket_contact_explode ⟨0, 0, 0, 1, false⟩ true (0, 0) 5 2
        [⟨1, (3, 4), 10, 10, 50⟩, ⟨2, (6, 0), 3, 3, 50⟩, ⟨3, (0, 1), 1, 1, 50⟩]).1.2 =
      [⟨1, (3, 4), 8, 10, 50⟩, ⟨2, (6, 0), 3, 3, 50⟩])
    ∧ (1 ∈ rocket_targets (0, 0) 5
        [⟨1, (3, 4), 10, 10, 50⟩, ⟨2, (6, 0), 3, 3, 50⟩, ⟨3, (0, 1), 1, 1, 50⟩])
    ∧ rocket_shard_count 200 = 28
    ∧ (rocket_contact_explode ⟨0, 0, 0, 1, false⟩ true (0, 0) 5 2
        [⟨1, (3, 4), 10, 10, 50⟩, ⟨2, (6, 0), 3, 3, 50⟩, ⟨3, (0, 1), 1, 1, 50⟩]).2 = true := by
  obtain ⟨-, -, hcon, hmem, -, -, hdesp⟩ := rocket_aoe_contract ⟨0, 0, 0, 1, false⟩ (0, 0) 5 2
    [⟨1, (3, 4), 10, 10, 50⟩, ⟨2, (6, 0), 3, 3, 50⟩, ⟨3, (0, 1), 1, 1, 50⟩] (by decide)
  refine ⟨(hcon true).trans ?_, ?_, ?_, hdesp true⟩
  · show aoe_spec_enemies (0, 0) 5 2 _ = _
    norm_num [aoe_spec_enemies, dist_sq, List.filterMap_cons]
  · exact (hmem ⟨1, (3, 4), 10, 10, 50⟩ (List.mem_cons_self ..)).mpr
      (by norm_num [dist_sq])
  · norm_num [rocket_shard_count]

/-! ## C5 — lightning chain greedy nearest-neighbor -/

/-- Bridge between the source's filter (Euclidean distance at most range)
and the executable squared form used by within_range. -/
theorem within_range_iff_sqrt (cur p : ℚ × ℚ) (range : ℚ) :
    within_range cur p range = true ↔
      Real.sqrt ((dist_sq p cur : ℚ) : ℝ) ≤ ((range : ℚ) : ℝ) := by
  unfold within_range
  rw [Real.sqrt_le_iff]
  simp only [decide_eq_true_eq]
  constructor
  · rintro ⟨hd, hr⟩
    refine ⟨by exact_mod_cast hr, ?_⟩
    have : ((dist_sq p cur : ℚ) : ℝ) ≤ ((range * range : ℚ) : ℝ) := by exact_mod_cast hd
    calc ((dist_sq p cur : ℚ) : ℝ) ≤ ((range * range : ℚ) : ℝ) := this
      _ = ((range : ℚ) : ℝ) ^ 2 := by push_cast; ring
  · rintro ⟨hr, hd⟩
    refine ⟨?_, by exact_mod_cast hr⟩
    have : ((dist_sq p cur : ℚ) : ℝ) ≤ ((range * range : ℚ) : ℝ) := by
      calc ((dist_sq p cur : ℚ) : ℝ) ≤ ((range : ℚ) : ℝ) ^ 2 := hd
        _ = ((range * range : ℚ) : ℝ) := by push_cast; ring
    exact_mod_cast this

theorem min_by_fold_some (cur : ℚ × ℚ) (l : List (ℕ × (ℚ × ℚ))) :
    ∀ b : ℕ × (ℚ × ℚ), ∃ r, l.foldl (min_by_step cur) (some b) = some r := by
  induction l with
  | nil => exact fun b => ⟨b, rfl⟩
  | cons t ts ih =>
    intro b
    rw [List.foldl_cons]
    show ∃ r, ts.foldl (min_by_step cur) (min_by_step cur (some b) t) = some r
    unfold min_by_step
    dsimp only
    split
    · exact ih t
    · exact ih b

theorem min_by_dist_eq_none (cur : ℚ × ℚ) (l : List (ℕ × (ℚ × ℚ))) :
    min_by_dist cur l = none ↔ l = [] := by
  constructor
  · intro h
    cases l with
    | nil => rfl
    | cons t ts =>
      unfold min_by_dist at h
      rw [List.foldl_cons] at h
      obtain ⟨r, hr⟩ := min_by_fold_some cur ts t
      rw [show min_by_step cur none t = some t from rfl, hr] at h
      cases h
  · rintro rfl
    rfl

theorem min_by_fold_spec (cur : ℚ × ℚ) (l : List (ℕ × (ℚ × ℚ))) :
    ∀ (acc : Option (ℕ × (ℚ × ℚ))) (r : ℕ × (ℚ × ℚ)),
      l.foldl (min_by_step cur) acc = some r →
      (acc = some r ∨ r ∈ l)
      ∧ (∀ u ∈ l, dist_sq r.2 cur ≤ dist_sq u.2 cur)
      ∧ (∀ b, acc = some b → dist_sq r.2 cur ≤ dist_sq b.2 cur) := by
  induction l with
  | nil =>
    intro acc r h
    refine ⟨Or.inl h, by simp, fun b hb => ?_⟩
    rw [hb] at h
    cases h
    exact le_refl _
  | cons t ts ih =>
    intro acc r h
    rw [List.foldl_cons] at h
    obtain ⟨hmem, hmin, hacc⟩ := ih (min_by_step cur acc t) r h
    cases acc with
    | none =>
      rw [show min_by_step cur none t = some t from rfl] at hmem hacc
      have hrt : dist_sq r.2 cur ≤ dist_sq t.2 cur := hacc t rfl
      refine ⟨?_, ?_, fun b hb => by cases hb⟩
      · rcases hmem with h2 | h2
        · cases h2
          exact Or.inr (List.mem_cons_self ..)
        · exact Or.inr (List.mem_cons_of_mem _ h2)
      · intro u hu
        rcases List.mem_cons.mp hu with rfl | hu
        · exact hrt
        · exact hmin u hu
    | some b0 =>
      by_cases hlt : dist_sq t.2 cur < dist_sq b0.2 cur
      · rw [show min_by_step cur (some b0) t = some t by unfold min_by_step; dsimp only; rw [if_pos hlt]]
          at hmem hacc
        have hrt : dist_sq r.2 cur ≤ dist_sq t.2 cur := hacc t rfl
        refine ⟨?_, ?_, ?_⟩
        · rcases hmem with h2 | h2
          · cases h2
            exact Or.inr (List.mem_cons_self ..)
          · exact Or.inr (List.mem_cons_of_mem _ h2)
        · intro u hu
          rcases List.mem_cons.mp hu with rfl | hu
          · exact hrt
          · exact hmin u hu
        · intro b hb
          cases hb
          exact hrt.trans hlt.le
      · rw [show min_by_step cur (some b0) t = some b0 by unfold min_by_step; dsimp only; rw [if_neg hlt]]
          at hmem hacc
        have hrb : dist_sq r.2 cur ≤ dist_sq b0.2 cur := hacc b0 rfl
        refine ⟨?_, ?_, ?_⟩
        · rcases hmem with h2 | h2
          · exact Or.inl h2
          · exact Or.inr (List.mem_cons_of_mem _ h2)
        · intro u hu
          rcases List.mem_cons.mp hu with rfl | hu
          · exact hrb.trans (not_lt.mp hlt)
          · exact hmin u hu
        · intro b hb
          cases hb
          exact hrb


theorem select_nearest_eq_none_iff (cur : ℚ × ℚ) (hit : List ℕ) (range : ℚ)
    (ts : List (ℕ × (ℚ × ℚ))) :
    select_nearest cur hit range ts = none ↔
      ∀ t ∈ ts, t.1 ∉ hit → within_range cur t.2 range = false := by
  unfold select_nearest
  rw [min_by_dist_eq_none, List.filter_eq_nil_iff]
  constructor
  · intro h t ht hmem
    have h2 := h t ht
    simp only [List.elem_eq_mem, Bool.and_eq_true, Bool.not_eq_eq_eq_not, Bool.not_true,
      decide_eq_false_iff_not, not_and] at h2
    exact Bool.eq_false_iff.mpr (h2 hmem)
  · intro h t ht
    intro hcontra
    simp only [List.elem_eq_mem, Bool.and_eq_true, Bool.not_eq_eq_eq_not, Bool.not_true,
      decide_eq_false_iff_not] at hcontra
    rw [h t ht hcontra.1] at hcontra
    exact Bool.false_ne_true hcontra.2

theorem select_nearest_some_spec {cur : ℚ × ℚ} {hit : List ℕ} {range : ℚ}
    {ts : List (ℕ × (ℚ × ℚ))} {r : ℕ × (ℚ × ℚ)}
    (h : select_nearest cur hit range ts = some r) :
    r ∈ ts ∧ r.1 ∉ hit ∧ within_range cur r.2 range = true
    ∧ ∀ u ∈ ts, u.1 ∉ hit → within_range cur u.2 range = true →
        dist_sq r.2 cur ≤ dist_sq u.2 cur := by
  unfold select_nearest min_by_dist at h
  obtain ⟨hmem, hmin, -⟩ := min_by_fold_spec cur _ none r h
  have hrc : r ∈ ts.filter fun t => !(hit.contains t.1) && within_range cur t.2 range := by
    rcases hmem with h2 | h2
    · cases h2
    · exact h2
  obtain ⟨hrm, hrp⟩ := List.mem_filter.mp hrc
  simp only [List.elem_eq_mem, Bool.and_eq_true, Bool.not_eq_eq_eq_not, Bool.not_true,
    decide_eq_false_iff_not] at hrp
  refine ⟨hrm, hrp.1, hrp.2, fun u hu hu1 hu2 => ?_⟩
  refine hmin u (List.mem_filter.mpr ⟨hu, ?_⟩)
  simp only [List.elem_eq_mem, Bool.and_eq_true, Bool.not_eq_eq_eq_not, Bool.not_true,
    decide_eq_false_iff_not]
  exact ⟨hu1, hu2⟩

theorem chain_step_none_iff (enemies bosses : List (ℕ × (ℚ × ℚ))) (range : ℚ)
    (cur : ℚ × ℚ) (hit : List ℕ) :
    chain_step enemies bosses range cur hit = none ↔
      ∀ t ∈ enemies ++ bosses, t.1 ∉ hit → within_range cur t.2 range = false := by
  unfold chain_step
  constructor
  · intro h t ht hmem
    rcases he : select_nearest cur hit range enemies with - | a <;>
      rcases hb : select_nearest cur hit range bosses with - | b <;>
      rw [he, hb] at h
    · rcases List.mem_append.mp ht with ht2 | ht2
      · exact (select_nearest_eq_none_iff cur hit range enemies).mp he t ht2 hmem
      · exact (select_nearest_eq_none_iff cur hit range bosses).mp hb t ht2 hmem
    · cases h
    · cases h
    · dsimp only at h
      split at h <;> cases h
  · intro h
    have he : select_nearest cur hit range enemies = none :=
      (select_nearest_eq_none_iff cur hit range enemies).mpr
        (fun t ht => h t (List.mem_append.mpr (Or.inl ht)))
    have hb : select_nearest cur hit range bosses = none :=
      (select_nearest_eq_none_iff cur hit range bosses).mpr
        (fun t ht => h t (List.mem_append.mpr (Or.inr ht)))
    rw [he, hb]

theorem chain_step_some_spec {enemies bosses : List (ℕ × (ℚ × ℚ))} {range : ℚ}
    {cur : ℚ × ℚ} {hit : List ℕ} {t : ℕ × (ℚ × ℚ)}
    (h : chain_step enemies bosses range cur hit = some t) :
    t ∈ enemies ++ bosses ∧ t.1 ∉ hit ∧ within_range cur t.2 range = true
    ∧ ∀ u ∈ enemies ++ bosses, u.1 ∉ hit → within_range cur u.2 range = true →
        dist_sq t.2 cur ≤ dist_sq u.2 cur := by
  unfold chain_step at h
  rcases he : select_nearest cur hit range enemies with - | a <;>
    rcases hb : select_nearest cur hit range bosses with - | b <;>
    rw [he, hb] at h
  · cases h
  · cases h
    obtain ⟨hm, hh, hw, hmin⟩ := select_nearest_some_spec hb
    refine ⟨List.mem_append.mpr (Or.inr hm), hh, hw, fun u hu hu1 hu2 => ?_⟩
    rcases List.mem_append.mp hu with hu3 | hu3
    · exact absurd hu2
        (by rw [(select_nearest_eq_none_iff cur hit range enemies).mp he u hu3 hu1]; simp)
    · exact hmin u hu3 hu1 hu2
  · cases h
    obtain ⟨hm, hh, hw, hmin⟩ := select_nearest_some_spec he
    refine ⟨List.mem_append.mpr (Or.inl hm), hh, hw, fun u hu hu1 hu2 => ?_⟩
    rcases List.mem_append.mp hu with hu3 | hu3
    · exact hmin u hu3 hu1 hu2
    · exact absurd hu2
        (by rw [(select_nearest_eq_none_iff cur hit range bosses).mp hb u hu3 hu1]; simp)
  · obtain ⟨hma, hha, hwa, hmina⟩ := select_nearest_some_spec he
    obtain ⟨hmb, hhb, hwb, hminb⟩ := select_nearest_some_spec hb
    dsimp only at h
    split at h <;> cases h
    · rename_i hab
      refine ⟨List.mem_append.mpr (Or.inl hma), hha, hwa, fun u hu hu1 hu2 => ?_⟩
      rcases List.mem_append.mp hu with hu3 | hu3
      · exact hmina u hu3 hu1 hu2
      · exact hab.trans (hminb u hu3 hu1 hu2)
    · rename_i hab
      refine ⟨List.mem_append.mpr (Or.inr hmb), hhb, hwb, fun u hu hu1 hu2 => ?_⟩
      rcases List.mem_append.mp hu with hu3 | hu3
      · exact (not_le.mp hab).le.trans (hmina u hu3 hu1 hu2)
      · exact hminb u hu3 hu1 hu2

theorem chain_walk_length (enemies bosses : List (ℕ × (ℚ × ℚ))) (range : ℚ) :
    ∀ (n : ℕ) (cur : ℚ × ℚ) (hit : List (ℕ × (ℚ × ℚ))),
      (chain_walk enemies bosses range n cur hit).length ≤ hit.length + n := by
  intro n
  induction n with
  | zero => intro cur hit; simp [chain_walk]
  | succ n ih =>
    intro cur hit
    unfold chain_walk
    cases h : chain_step enemies bosses range cur (hit.map fun h => h.1) with
    | none => simp
    | some t =>
      calc (chain_walk enemies bosses range n t.2 (hit ++ [t])).length
          ≤ (hit ++ [t]).length + n := ih t.2 (hit ++ [t])
        _ = hit.length + (n + 1) := by simp; omega

theorem chain_walk_nodup (enemies bosses : List (ℕ × (ℚ × ℚ))) (range : ℚ) :
    ∀ (n : ℕ) (cur : ℚ × ℚ) (hit : List (ℕ × (ℚ × ℚ))),
      ((hit.map fun h => h.1).Nodup) →
      (((chain_walk enemies bosses range n cur hit).map fun h => h.1).Nodup) := by
  intro n
  induction n with
  | zero => intro cur hit h; exact h
  | succ n ih =>
    intro cur hit hnd
    unfold chain_walk
    cases h : chain_step enemies bosses range cur (hit.map fun h => h.1) with
    | none => exact hnd
    | some t =>
      refine ih t.2 (hit ++ [t]) ?_
      obtain ⟨-, hh, -, -⟩ := chain_step_some_spec h
      rw [List.map_append]
      simp only [List.map_cons, List.map_nil]
      exact List.Nodup.append hnd (List.nodup_singleton _)
        (by simpa [List.disjoint_singleton] using hh)

theorem lightning_apply_damage_count (dmg : ℤ) :
    ∀ (hit_ids : List ℕ) (es : List WorldEnemy),
      lightning_apply_damage dmg es hit_ids =
        es.map fun e => { e with health := e.health - dmg * hit_ids.count e.id } := by
  intro hit_ids
  induction hit_ids with
  | nil =>
    intro es
    show es = _
    conv_lhs => rw [← List.map_id es]
    refine List.map_congr_left fun e he => ?_
    simp
  | cons h hs ih =>
    intro es
    show lightning_apply_damage dmg
      (es.map fun e => if e.id = h then { e with health := e.health - dmg } else e) hs = _
    rw [ih, List.map_map]
    refine List.map_congr_left fun e he => ?_
    simp only [Function.comp_apply]
    by_cases heq : e.id = h
    · rw [if_pos heq]
      simp only [List.count_cons]
      rw [if_pos (by simp [heq])]
      congr 1
      push_cast
      ring
    · rw [if_neg heq]
      simp only [List.count_cons]
      rw [if_neg (by simp only [beq_iff_eq]; exact fun hh => heq hh.symm)]
      simp

/-- C5: the lightning-chain resolution is a greedy nearest-neighbor walk:
at most jumps targets are recorded and no id repeats; a step returns
nothing exactly when no not-yet-hit target (enemy or boss) is within range
of the current position, and otherwise returns a not-yet-hit in-range
target of minimal squared distance over the union of both pools; the walk
stops on a none step and otherwise records the hop, advances to the
target's position and decrements the remaining jumps; afterwards damage is
applied exactly once to every target in the recorded chain. -/
theorem lightning_chain_greedy (enemies bosses : List (ℕ × (ℚ × ℚ))) (range : ℚ)
    (jumps : ℕ) (start : ℚ × ℚ) :
    (chain_walk enemies bosses range jumps start []).length ≤ jumps
    ∧ ((chain_walk enemies bosses range jumps start []).map fun h => h.1).Nodup
    ∧ (∀ (cur : ℚ × ℚ) (hit : List ℕ),
        chain_step enemies bosses range cur hit = none ↔
          ∀ t ∈ enemies ++ bosses, t.1 ∉ hit → within_range cur t.2 range = false)
    ∧ (∀ (cur : ℚ × ℚ) (hit : List ℕ) (t : ℕ × (ℚ × ℚ)),
        chain_step enemies bosses range cur hit = some t →
          t ∈ enemies ++ bosses ∧ t.1 ∉ hit ∧ within_range cur t.2 range = true
          ∧ ∀ u ∈ enemies ++ bosses, u.1 ∉ hit → within_range cur u.2 range = true →
              dist_sq t.2 cur ≤ dist_sq u.2 cur)
    ∧ (∀ (n : ℕ) (cur : ℚ × ℚ) (hit : List (ℕ × (ℚ × ℚ))),
        chain_step enemies bosses range cur (hit.map fun h => h.1) = none →
          chain_walk enemies bosses range (n + 1) cur hit = hit)
    ∧ (∀ (n : ℕ) (cur : ℚ × ℚ) (hit : List (ℕ × (ℚ × ℚ))) (t : ℕ × (ℚ × ℚ)),
        chain_step enemies bosses range cur (hit.map fun h => h.1) = some t →
          chain_walk enemies bosses range (n + 1) cur hit =
            chain_walk enemies bosses range n t.2 (hit ++ [t]))
    ∧ (∀ (dmg : ℤ) (es : List WorldEnemy) (hit_ids : List ℕ), hit_ids.Nodup →
        lightning_apply_damage dmg es hit_ids =
          es.map fun e =>
            if e.id ∈ hit_ids then { e with health := e.health - dmg } else e) := by
  refine ⟨by simpa using chain_walk_length enemies bosses range jumps start [],
    chain_walk_nodup enemies bosses range jumps start [] (by simp),
    chain_step_none_iff enemies bosses range,
    fun cur hit t h => chain_step_some_spec h, ?_, ?_, ?_⟩
  · intro n cur hit h
    conv_lhs => unfold chain_walk
    rw [h]
  · intro n cur hit t h
    conv_lhs => unfold chain_walk
    rw [h]
  · intro dmg es hit_ids hnd
    rw [lightning_apply_damage_count]
    refine List.map_congr_left fun e he => ?_
    by_cases hmem : e.id ∈ hit_ids
    · rw [if_pos hmem, List.count_eq_one_of_mem hnd hmem]
      simp
    · rw [if_neg hmem, List.count_eq_zero_of_not_mem hmem]
      simp

/-- Witness for C5: the damage settlement with a one-element nodup chain
subtracts the damage exactly once, and a walk step with no targets at all
stops immediately. -/
theorem lightning_chain_greedy_witness :
    lightning_apply_damage 3 [⟨1, (0, 0), 5, 5, 10⟩, ⟨2, (2, 0), 7, 7, 10⟩] [1] =
      [⟨1, (0, 0), 2, 5, 10⟩, ⟨2, (2, 0), 7, 7, 10⟩]
    ∧ chain_walk [] [] 5 4 (0, 0) [] = [] := by
  obtain ⟨-, -, hnone, -, hstop, -, hdmg⟩ := lightning_chain_greedy [] [] 5 4 (0, 0)
  constructor
  · rw [hdmg 3 [⟨1, (0, 0), 5, 5, 10⟩, ⟨2, (2, 0), 7, 7, 10⟩] [1] (by decide)]
    simp
  · exact hstop 3 (0, 0) [] rfl

/-! ## C10 — lightning tie-break prefers the enemy pool -/

/-- C10: in the hop decision of resolve_lightning_casts, when the nearest
unhit enemy and the nearest unhit boss are at exactly equal squared
distance the enemy is chosen (the comparison is da <= db in the enemy's
favor); the boss is chosen only when strictly nearer. -/
theorem lightning_tie_prefers_enemy (enemies bosses : List (ℕ × (ℚ × ℚ)))
    (range : ℚ) (cur : ℚ × ℚ) (hit : List ℕ) (a b : ℕ × (ℚ × ℚ))
    (hea : select_nearest cur hit range enemies = some a)
    (heb : select_nearest cur hit range bosses = some b) :
    (dist_sq a.2 cur = dist_sq b.2 cur →
      chain_step enemies bosses range cur hit = some a)
    ∧ (dist_sq a.2 cur ≤ dist_sq b.2 cur →
      chain_step enemies bosses range cur hit = some a)
    ∧ (dist_sq b.2 cur < dist_sq a.2 cur →
      chain_step enemies bosses range cur hit = some b) := by
  unfold chain_step
  rw [hea, heb]
  dsimp only
  exact ⟨fun h => if_pos h.le, fun h => if_pos h, fun h => if_neg (not_le.mpr h)⟩

/-- Witness for C10: the enemy at (0, 2) and the boss at (2, 0) are both at
squared distance 4 from the origin; the tie goes to the enemy. -/
theorem lightning_tie_prefers_enemy_witness :
    chain_step [(1, ((0 : ℚ), (2 : ℚ)))] [(9, ((2 : ℚ), (0 : ℚ)))] 5 (0, 0) [] =
      some (1, ((0 : ℚ), (2 : ℚ))) := by
  have hea : select_nearest (0, 0) [] 5 [(1, ((0 : ℚ), (2 : ℚ)))] =
      some (1, ((0 : ℚ), (2 : ℚ)))  := by
    unfold select_nearest min_by_dist
    rw [List.filter_cons]
    norm_num [within_range, dist_sq, min_by_step]
  have heb : select_nearest (0, 0) [] 5 [(9, ((2 : ℚ), (0 : ℚ)))] =
      some (9, ((2 : ℚ), (0 : ℚ)))  := by
    unfold select_nearest min_by_dist
    rw [List.filter_cons]
    norm_num [within_range, dist_sq, min_by_step]
  exact (lightning_tie_prefers_enemy [(1, ((0 : ℚ), (2 : ℚ)))] [(9, ((2 : ℚ), (0 : ℚ)))]
    5 (0, 0) [] _ _ hea heb).1 (by norm_num [dist_sq])

end ShootGame
